import Mathlib

/-!
# Insurance Claims Fulfillment Automation System — verification development

Shallow embedding of the orchestration logic of the claims-fulfillment
pipeline (`fulfillment_processor.py` and `mail_monitor.py`).  Pure string
processing (keyword scans, the `FULFILLMENT_STATUS` / `MISSING_ITEMS`
extractor, the monetary-pattern scanner) is translated directly; remote
effects (the reasoning backend, the mail service, the directory lookup,
the archive store, the fulfillment API) are modelled by explicit outcome
parameters, and the side effects of a run are recorded as an explicit
event trace.
-/

namespace Claims

/-! ## Basic string machinery

Python's `in` operator on strings, `str.lower`, `str.strip`,
`str.startswith` and `os.path.basename`, over `List Char` so that every
predicate is executable. -/

/-- `strHasPre pat l` : the character list `l` starts with `pat`
(Python `str.startswith`). -/
def strHasPre : List Char → List Char → Bool
  | [], _ => true
  | _ :: _, [] => false
  | a :: as, b :: bs => a == b && strHasPre as bs

/-- `stripPre pat l` : if `l` starts with `pat`, the remainder after the
prefix, else `none`. -/
def stripPre : List Char → List Char → Option (List Char)
  | [], l => some l
  | _ :: _, [] => none
  | a :: as, b :: bs => if a == b then stripPre as bs else none

/-- `subOf pat l` : `pat` occurs as a contiguous run inside `l`
(Python's `pat in l` on strings). -/
def subOf (pat : List Char) : List Char → Bool
  | [] => pat.isEmpty
  | c :: t => strHasPre pat (c :: t) || subOf pat t

/-- Python substring containment `pat in hay`. -/
def strHasSub (hay pat : String) : Bool := subOf pat.toList hay.toList

/-- Python whitespace class `\s` (ASCII part: space, tab, newline,
carriage return, vertical tab, form feed). -/
def isWs (c : Char) : Bool :=
  c == ' ' || c == '\t' || c == '\n' || c == '\r' || c == '\x0b' || c == '\x0c'

/-- Strip whitespace from both ends of a character list (Python `str.strip`). -/
def trimWs (l : List Char) : List Char :=
  ((l.dropWhile isWs).reverse.dropWhile isWs).reverse

/-- Python `str.strip` on strings. -/
def stripString (s : String) : String := String.mk (trimWs s.toList)

/-- Python `str.lower` (ASCII case folding, which covers every character
these keyword scans compare). -/
def lowerStr (s : String) : String := String.mk (s.toList.map Char.toLower)

/-- Split a character list on `\n` (Python `str.split('\n')` — keeps
empty segments). -/
def splitNl : List Char → List (List Char)
  | [] => [[]]
  | '\n' :: t => [] :: splitNl t
  | c :: t =>
    match splitNl t with
    | [] => [[c]]
    | seg :: rest => (c :: seg) :: rest

/-- Join character-list lines with `\n` (Python newline join). -/
def joinNl : List (List Char) → List Char
  | [] => []
  | [l] => l
  | l :: ls => l ++ '\n' :: joinNl ls

/-- `os.path.basename`: the part of a path after the last `/`. -/
def baseName (p : String) : String :=
  String.mk (p.toList.reverse.takeWhile (fun c => c != '/')).reverse

/-! ## Data model

`EmailRecord` as built by the Ingestion Pipeline (`mail_monitor.py`,
`fetch_new_mails_to_queue`): the fields of the `email_data` dict that the
fulfillment logic reads. -/

/-- The `email_data` dict built at ingestion time. -/
structure EmailData where
  senderEmail : String
  subject : String
  content : String
  claimId : String
  attachmentCount : Nat
  attachmentPaths : List String
  deriving Repr, DecidableEq

/-! ## Monetary pattern scan (`identify_satisfied_requirements`, the
`monetary_patterns` regex list)

Each pattern from the source is a literal, an optional single character,
then `\s*` then one-or-more characters of the class `[\d,]` — except the
last, which is three consecutive `[\d,]` characters.  `re.search` tries
every start position left-to-right; since the tail `\s*[\d,]+` is greedy
over whitespace and the required first amount character can never be
whitespace, matching at a position reduces to: skip whitespace, then the
head of the rest is a digit or comma. -/

/-- Character class `[\d,]` of the monetary regexes. -/
def isAmtChar (c : Char) : Bool := c.isDigit || c == ','

/-- Does `\s*[\d,]+` match at the front of `l`? -/
def matchWsAmt (l : List Char) : Bool :=
  match l.dropWhile isWs with
  | c :: _ => isAmtChar c
  | [] => false

/-- Does `lit`, then an optional occurrence of `optC`, then `\s*[\d,]+`
match at the front of `l`? -/
def matchLitAmt (lit : List Char) (optC : Option Char) (l : List Char) : Bool :=
  match stripPre lit l with
  | none => false
  | some rest =>
    match optC with
    | none => matchWsAmt rest
    | some c =>
      (match rest with
       | c' :: t => (c' == c && matchWsAmt t) || matchWsAmt rest
       | [] => false)

/-- Does `[\d,]{3,}` match at the front of `l`? -/
def matchThreeAmt : List Char → Bool
  | a :: b :: c :: _ => isAmtChar a && isAmtChar b && isAmtChar c
  | _ => false

/-- `re.search`: does `p` match at some start position of `l`? -/
def searchPos (p : List Char → Bool) : List Char → Bool
  | [] => p []
  | c :: t => p (c :: t) || searchPos p t

/-- The `has_monetary_value` scan of `identify_satisfied_requirements`:
`re.search` of each of the ten `monetary_patterns` over the lowercased
email body. -/
def hasMonetaryValue (content : String) : Bool :=
  let l := (lowerStr content).toList
  searchPos (matchLitAmt ['$'] none) l ||
  searchPos (matchLitAmt ['r', 's'] (some '.')) l ||
  searchPos (matchLitAmt ['i', 'n', 'r'] none) l ||
  searchPos (matchLitAmt ['u', 's', 'd'] none) l ||
  searchPos (matchLitAmt "amount".toList (some ':')) l ||
  searchPos (matchLitAmt "cost".toList (some ':')) l ||
  searchPos (matchLitAmt "claim".toList (some ':')) l ||
  searchPos (matchLitAmt "damage".toList (some ':')) l ||
  searchPos (matchLitAmt "total".toList (some ':')) l ||
  searchPos matchThreeAmt l

/-! ## Satisfied-requirements computation
(`identify_satisfied_requirements`) -/

/-- `reason_keywords` of `identify_satisfied_requirements`. -/
def reasonKeywords : List String :=
  ["reason", "description", "what happened", "incident", "cause", "explain"]

/-- `amount_keywords` of `identify_satisfied_requirements`. -/
def amountKeywords : List String :=
  ["amount", "dollar", "cost", "money", "price", "value", "sum", "total",
   "claim", "damage", "bill", "specific claim amount", "currency"]

/-- `proof_keywords` of `identify_satisfied_requirements`. -/
def proofKeywords : List String :=
  ["proof", "document", "attachment", "evidence", "support", "bill",
   "receipt", "photo", "police report", "medical"]

/-- `any(keyword in missing_lower for keyword in kws)`. -/
def anyKeywordIn (kws : List String) (s : String) : Bool :=
  kws.any (fun k => strHasSub s k)

/-- The satisfied-item line for the claim-amount requirement. -/
def claimAmountItem : String := "✓ Claim amount specified"

/-- `identify_satisfied_requirements(email_data, missing_items_text)`.
The source also computes `has_monetary_value` over the body (see
`hasMonetaryValue`) but that flag is read nowhere afterwards: the
claim-amount item is appended exactly when no amount keyword occurs in
the lowercased missing-items text. -/
def identifySatisfiedRequirements (e : EmailData) (missingItemsText : String) :
    List String :=
  let missingLower := lowerStr missingItemsText
  let satisfied := ["✓ User email address provided"]
  let satisfied :=
    if anyKeywordIn reasonKeywords missingLower then satisfied
    else satisfied ++ ["✓ Reason for claim provided"]
  let satisfied :=
    if anyKeywordIn amountKeywords missingLower then satisfied
    else satisfied ++ [claimAmountItem]
  if e.attachmentCount > 0 then
    if anyKeywordIn proofKeywords missingLower then
      satisfied ++ ["✓ Some documents provided (" ++ toString e.attachmentCount
                    ++ " attachments, additional may be needed)"]
    else
      satisfied ++ ["✓ Supporting documents provided (" ++ toString e.attachmentCount
                    ++ " attachments)"]
  else satisfied

/-! ## Fulfillment-response parsing (`parse_fulfillment_response`)

`re.search(r'FULFILLMENT_STATUS:\s*(COMPLETED|PENDING)', r)` finds the
leftmost occurrence of the literal marker followed by whitespace and one
of the two status words (the alternation is unambiguous because the two
words start with different letters, so greedy whitespace skipping is
exact).  `re.search(r'MISSING_ITEMS:\s*(.*?)(?=\n\n|FULFILLMENT_STATUS:|$)',
r, re.DOTALL)` finds the leftmost `MISSING_ITEMS:` marker, skips
whitespace greedily, and lazily captures up to the first position that
starts a blank line pair, starts another status marker, or is the end of
the text (where `$` without `re.MULTILINE` also matches just before a
final newline). -/

/-- Terminal fulfillment status. -/
inductive FStatus where
  | completed
  | pending
  deriving Repr, DecidableEq

/-- Does the status regex match at the front of `l`, and with which
status word? -/
def statusAt (l : List Char) : Option FStatus :=
  match stripPre "FULFILLMENT_STATUS:".toList l with
  | none => none
  | some rest =>
    let r := rest.dropWhile isWs
    match stripPre "COMPLETED".toList r with
    | some _ => some FStatus.completed
    | none =>
      match stripPre "PENDING".toList r with
      | some _ => some FStatus.pending
      | none => none

/-- Leftmost match of the status regex over the whole response. -/
def findStatus : List Char → Option FStatus
  | [] => none
  | c :: t =>
    match statusAt (c :: t) with
    | some s => some s
    | none => findStatus t

/-- Does the lazy capture of the missing-items regex stop at this suffix
(lookahead `\n\n`, `FULFILLMENT_STATUS:`, or `$`)? -/
def missingStopsAt (l : List Char) : Bool :=
  (stripPre ['\n', '\n'] l).isSome ||
  (stripPre "FULFILLMENT_STATUS:".toList l).isSome ||
  l.isEmpty || l == ['\n']

/-- Characters captured by the lazy `(.*?)` up to the stopping lookahead. -/
def captureMissing : List Char → List Char
  | [] => []
  | c :: t => if missingStopsAt (c :: t) then [] else c :: captureMissing t

/-- Leftmost match of the missing-items regex: the captured group, or
`none` when `MISSING_ITEMS:` does not occur. -/
def findMissing : List Char → Option (List Char)
  | [] => none
  | c :: t =>
    match stripPre "MISSING_ITEMS:".toList (c :: t) with
    | some rest => some (captureMissing (rest.dropWhile isWs))
    | none => findMissing t

/-- The bullet-normalisation applied to the captured missing-items text:
strip, split on newlines, strip each line, prefix `- ` to non-empty lines
that do not already start with `-`, drop empty lines, re-join. -/
def formatMissing (cap : List Char) : String :=
  let lines := splitNl (trimWs cap)
  let formatted := lines.filterMap (fun ln =>
    let ln := trimWs ln
    if ln.isEmpty then none
    else if strHasPre ['-'] ln then some ln
    else some ('-' :: ' ' :: ln))
  String.mk (joinNl formatted)

/-- The generic default placeholder used when the `MISSING_ITEMS:` block
cannot be located. -/
def defaultMissing : String := "- Required fulfillment items missing"

/-- The missing-items text as computed in the `PENDING` branch of
`parse_fulfillment_response`. -/
def extractMissingItems (r : String) : String :=
  match findMissing r.toList with
  | some cap => formatMissing cap
  | none => defaultMissing

/-- The satisfied-items list reported for a backend-stated `COMPLETED`. -/
def completedSatisfiedList (attachmentCount : Nat) : List String :=
  ["✓ User email address provided",
   "✓ Reason for claim provided",
   "✓ Claim amount specified",
   "✓ Supporting documents provided (" ++ toString attachmentCount ++ " attachments)"]

/-- Result of `parse_fulfillment_response` (the status, missing-items and
satisfied-items fields of the returned dict). -/
structure ParseResult where
  status : FStatus
  missingItems : String
  satisfiedItems : List String
  deriving Repr, DecidableEq

/-- `parse_fulfillment_response(llm_response, email_data)`: extract the
stated status (defaulting to `PENDING` when the marker is absent); in the
`PENDING` branch extract and normalise the missing items, recompute the
satisfied items from the raw email, and apply the failsafe override; in
the `COMPLETED` branch report empty missing items and the fixed satisfied
list. -/
def parseFulfillmentResponse (llmResponse : String) (e : EmailData) : ParseResult :=
  let status := (findStatus llmResponse.toList).getD FStatus.pending
  if status = FStatus.pending then
    let missingItems := extractMissingItems llmResponse
    let satisfiedItems := identifySatisfiedRequirements e missingItems
    if 4 ≤ satisfiedItems.length ∧
        (missingItems = "" ∨ stripString missingItems = "" ∨ missingItems = defaultMissing) then
      { status := FStatus.completed, missingItems := "", satisfiedItems := [] }
    else
      { status := FStatus.pending, missingItems := missingItems,
        satisfiedItems := satisfiedItems }
  else
    { status := status, missingItems := "",
      satisfiedItems := completedSatisfiedList e.attachmentCount }

/-! ## Classifier client (`filter_email_with_llm` and its fallbacks)

The remote backend call is modelled by an outcome parameter: either the
call raised (network error / timeout), or it returned a text response.
`json.loads` on the extracted `{...}` span is a library call modelled by
its outcome: `some r` when the span parses to a classification dict,
`none` on `JSONDecodeError`. -/

/-- The classification dict returned by the classifier client. -/
structure ClassificationResult where
  isInsurance : Bool
  confidence : Nat
  reasoning : String
  category : String
  deriving Repr, DecidableEq

/-- Outcome of the backend call inside `filter_email_with_llm`:
the call raised, or returned `content` whose extracted `{...}` span (if
any) `json.loads`-parses to `jsonParsed`. -/
inductive LLMCallOutcome where
  | failure
  | ok (content : String) (jsonParsed : Option ClassificationResult)
  deriving Repr, DecidableEq

/-- `json_start = content.find('{'); json_end = content.rfind('}') + 1;
json_start >= 0 and json_end > json_start`: there is a `{` with a `}`
somewhere after it. -/
def hasJsonSpan : List Char → Bool
  | [] => false
  | c :: t => if c == '\x7b' then t.contains '\x7d' else hasJsonSpan t

/-- `_parse_llm_response_fallback(response_content)`: text-level fallback
used when no `{...}` span can be located in the backend response. -/
def parseLlmResponseFallback (responseContent : String) : ClassificationResult :=
  let responseLower := lowerStr responseContent
  let isInsurance :=
    anyKeywordIn ["true", "yes", "insurance", "claim"] responseLower
  let category :=
    if strHasSub responseLower "auto" || strHasSub responseLower "car" then "auto_claim"
    else if strHasSub responseLower "health" || strHasSub responseLower "medical" then
      "health_inquiry"
    else if strHasSub responseLower "home" || strHasSub responseLower "property" then
      "property_claim"
    else "unknown"
  { isInsurance := isInsurance, confidence := 50,
    reasoning := "LLM response parsing failed, using fallback analysis",
    category := category }

/-- `insurance_keywords` of `_fallback_insurance_check`. -/
def insuranceKeywords : List String :=
  ["claim", "insurance", "policy", "coverage", "damage", "accident"]

/-- Number of fixed insurance keywords present in subject or content. -/
def insuranceKeywordCount (e : EmailData) : Nat :=
  (insuranceKeywords.filter (fun k =>
    strHasSub (lowerStr e.subject) k || strHasSub (lowerStr e.content) k)).length

/-- `_fallback_insurance_check(email_data)`: the deterministic
keyword-count heuristic over subject+body. -/
def fallbackInsuranceCheck (e : EmailData) : ClassificationResult :=
  let keywordCount := insuranceKeywordCount e
  { isInsurance := decide (2 ≤ keywordCount), confidence := 30,
    reasoning := "Fallback keyword check found " ++ toString keywordCount
                 ++ " insurance keywords",
    category := "fallback_analysis" }

/-- `filter_email_with_llm(email_data)` as a function of the backend-call
outcome: on a raised call, the keyword fallback; on a response, extract
the `{...}` span and parse it (`JSONDecodeError` falls back to the
keyword check); when no span can be located, the text-level fallback. -/
def filterEmailWithLlm (e : EmailData) (outcome : LLMCallOutcome) :
    ClassificationResult :=
  match outcome with
  | LLMCallOutcome.failure => fallbackInsuranceCheck e
  | LLMCallOutcome.ok content jsonParsed =>
    if hasJsonSpan content.toList then
      match jsonParsed with
      | some result => result
      | none => fallbackInsuranceCheck e
    else
      parseLlmResponseFallback content

/-! ## Fulfillment engine run (`process_email_fulfillment`,
`save_to_fulfillment_table`)

Remote effects are modelled by an environment of call outcomes, and the
run is recorded as an event trace in program order:
`archiveUpload` for `upload_to_mongodb_for_completed_fulfillment`,
`save` for the `POST /add-fulfillment` call of
`save_to_fulfillment_table` (carrying the `api_data` payload it built),
`sendMail` for `send_mail_via_service`, and `cleanupFiles` for
`cleanup_local_files_after_mongodb_upload`. -/

/-- Result of `mongodb_manager.upload_complete_email` (the archive-upload
result dict consumed by `save_to_fulfillment_table`). -/
structure ArchiveResult where
  mailFileId : Option String
  attachmentFileIds : List String
  uploadTimestamp : String
  deriving Repr, DecidableEq

/-- The `api_data` payload built by `save_to_fulfillment_table` (the
fields the fulfillment API persists). -/
structure FulfillmentApiData where
  userMail : String
  claimId : String
  mailContent : String
  mailContentRef : Option String
  attachmentCount : Nat
  attachmentRefs : Option (List String)
  localAttachmentPaths : Option (List String)
  fulfillmentStatus : String
  missingItems : Option String
  uploadTimestamp : Option String
  hasFileIds : Bool
  deriving Repr, DecidableEq

/-- Python string slicing `s[:n]` (by code point). -/
def strTake (s : String) (n : Nat) : String := String.mk (s.toList.take n)

/-- `save_to_fulfillment_table`: the `api_data` dict it assembles before
calling `POST /add-fulfillment`. -/
def buildApiData (e : EmailData) (status : String) (missingItems : String)
    (archive : Option ArchiveResult) : FulfillmentApiData :=
  let localPaths := e.attachmentPaths.map baseName
  match archive, status with
  | some a, "completed" =>
    { userMail := e.senderEmail
      claimId := e.claimId
      mailContent := "Subject: " ++ e.subject ++ "\nContent: " ++ strTake e.content 800
      mailContentRef := a.mailFileId.map (fun fid => "mongodb://gridfs/" ++ fid)
      attachmentCount := a.attachmentFileIds.length
      attachmentRefs :=
        if (a.attachmentFileIds.map (fun fid => "mongodb://gridfs/" ++ fid)).isEmpty
        then none
        else some (a.attachmentFileIds.map (fun fid => "mongodb://gridfs/" ++ fid))
      localAttachmentPaths := if localPaths.isEmpty then none else some localPaths
      fulfillmentStatus := status
      missingItems := if missingItems.isEmpty then none else some missingItems
      uploadTimestamp := some a.uploadTimestamp
      hasFileIds := true }
  | _, _ =>
    { userMail := e.senderEmail
      claimId := e.claimId
      mailContent :=
        strTake ("Subject: " ++ e.subject ++ "\nContent: " ++ e.content) 1000
      mailContentRef := none
      attachmentCount := e.attachmentPaths.length
      attachmentRefs := none
      localAttachmentPaths := if localPaths.isEmpty then none else some localPaths
      fulfillmentStatus := status
      missingItems := if missingItems.isEmpty then none else some missingItems
      uploadTimestamp := none
      hasFileIds := false }

/-- One observable effect of a fulfillment-engine run. -/
inductive FEvent where
  | archiveUpload (ok : Bool)
  | save (data : FulfillmentApiData) (ok : Bool)
  | sendMail (recipient : String) (ok : Bool)
  | cleanupFiles
  deriving Repr, DecidableEq

/-- Outcomes of the remote calls a fulfillment-engine run can make. -/
structure FulfillEnv where
  /-- `assess_fulfillment_with_llm` result (`none` when the prompt files
  are unavailable or the backend call raised). -/
  llmReply : Option String
  /-- `upload_to_mongodb_for_completed_fulfillment` result. -/
  archive : Option ArchiveResult
  /-- Whether `POST /add-fulfillment` answers 200. -/
  saveOk : Bool
  /-- Whether `POST /send-mail` answers 200. -/
  mailOk : Bool
  deriving Repr, DecidableEq

/-- Is an event a `save`? -/
def FEvent.isSave : FEvent → Bool
  | FEvent.save _ _ => true
  | _ => false

/-- `process_email_fulfillment(email_data)`: assess via the backend,
parse, then branch on the terminal status.  `COMPLETED`: archive upload,
then persist (with file references on archive success, without them on
archive failure), then — only after a successful persist following a
successful upload — local cleanup.  `PENDING`: persist as pending, and
only if the persist succeeded dispatch the customer notification;
overall success requires both. Returns the reported success flag and
the event trace. -/
def processEmailFulfillment (env : FulfillEnv) (e : EmailData) :
    Bool × List FEvent :=
  match env.llmReply with
  | none => (false, [])
  | some llmResponse =>
    let parsed := parseFulfillmentResponse llmResponse e
    match parsed.status with
    | FStatus.completed =>
      match env.archive with
      | some a =>
        let saveEv := FEvent.save (buildApiData e "completed" "" (some a)) env.saveOk
        if env.saveOk then
          (true, [FEvent.archiveUpload true, saveEv, FEvent.cleanupFiles])
        else
          (false, [FEvent.archiveUpload true, saveEv])
      | none =>
        (env.saveOk,
         [FEvent.archiveUpload false,
          FEvent.save (buildApiData e "completed" "" none) env.saveOk])
    | FStatus.pending =>
      let saveEv :=
        FEvent.save (buildApiData e "pending" parsed.missingItems none) env.saveOk
      if env.saveOk then
        (env.mailOk, [saveEv, FEvent.sendMail e.senderEmail env.mailOk])
      else
        (false, [saveEv])

/-! ## Directory lookup (`check_user_registration`) -/

/-- The user payload of a successful directory lookup. -/
structure UserData where
  userId : String
  policyType : String
  deriving Repr, DecidableEq

/-- Outcome of the `GET /user/{email}` call: a transport error
(`requests` raised), or an HTTP reply with a status code, the `status`
field of its JSON body, and the `user` payload. -/
inductive RegApiOutcome where
  | transportError
  | httpReply (statusCode : Nat) (bodyStatus : String) (user : UserData)
  deriving Repr, DecidableEq

/-- `check_user_registration(email_address)`: registered only when the
reply is HTTP 200 with body status `success`; non-200 replies and
transport errors are treated as unregistered. -/
def checkUserRegistration : RegApiOutcome → Bool × Option UserData
  | RegApiOutcome.transportError => (false, none)
  | RegApiOutcome.httpReply statusCode bodyStatus user =>
    if statusCode = 200 then
      if bodyStatus = "success" then (true, some user) else (false, none)
    else (false, none)

/-! ## Queue processor (`process_email_queue`)

One drain cycle over the queued email records.  Each record carries the
outcomes of the remote calls made while handling it; `raises` models an
exception escaping the body of the drain loop for that record (every
modelled remote call catches its own exceptions, so `raises` stands for
any other failure inside the loop body).  The `except` handler of the
drain loop executes `break`, so the cycle ends there and the remaining
records stay queued. -/

/-- A queued record together with the outcomes of the calls made while
handling it.  `rid` distinguishes records in the trace. -/
structure QRecord where
  rid : Nat
  data : EmailData
  /-- An exception escapes the loop body while handling this record. -/
  raises : Bool
  /-- Outcome of the directory lookup for the sender. -/
  regOutcome : RegApiOutcome
  /-- Whether the registration-required notification dispatch succeeds. -/
  rejectionSendOk : Bool
  /-- Environment for the fulfillment-engine run, when reached. -/
  fulfillEnv : FulfillEnv
  deriving Repr, DecidableEq

/-- One observable effect of a drain cycle. -/
inductive QEvent where
  /-- `send_unregistered_user_email_via_service` was called for `rid`. -/
  | rejectionSent (rid : Nat) (ok : Bool)
  /-- `process_email_fulfillment` was invoked for `rid`. -/
  | fulfillmentRun (rid : Nat) (reportedSuccess : Bool)
  deriving Repr, DecidableEq

/-- The `rid` an event concerns. -/
def QEvent.rid : QEvent → Nat
  | QEvent.rejectionSent r _ => r
  | QEvent.fulfillmentRun r _ => r

/-- Is the event a fulfillment-engine invocation? -/
def QEvent.isFulfillmentRun : QEvent → Bool
  | QEvent.fulfillmentRun _ _ => true
  | _ => false

/-- Is the event a registration-required dispatch? -/
def QEvent.isRejectionSent : QEvent → Bool
  | QEvent.rejectionSent _ _ => true
  | _ => false

/-- Effects of handling one dequeued record (the non-raising loop body):
unregistered senders get exactly one registration-required dispatch and
no fulfillment run; registered senders get a fulfillment-engine run. -/
def recStep (rec : QRecord) : List QEvent :=
  if (checkUserRegistration rec.regOutcome).fst then
    [QEvent.fulfillmentRun rec.rid (processEmailFulfillment rec.fulfillEnv rec.data).fst]
  else
    [QEvent.rejectionSent rec.rid rec.rejectionSendOk]

/-- `process_email_queue()`: drain the queue front-to-back; a record
whose handling raises triggers the `except` handler, which breaks the
loop — the events so far are kept and the not-yet-dequeued records
remain in the queue.  Returns the event trace and the remaining queue. -/
def processEmailQueue : List QRecord → List QEvent × List QRecord
  | [] => ([], [])
  | rec :: rest =>
    if rec.raises then ([], rest)
    else
      let p := processEmailQueue rest
      (recStep rec ++ p.fst, p.snd)

/-! ## Poll cycle (`monitor_mails`)

One iteration of the monitoring loop, recorded as an event trace.
`fetch_new_mails_to_queue` catches every exception internally and
returns an added-count (0 when its body raised), so the cycle always
continues to the cursor update. -/

/-- One observable effect of a poll cycle. -/
inductive MEvent where
  /-- `fetch_new_mails_to_queue(stored, current)` ran for sequence ids
  `lo..hi`; `ok = false` means its body raised (caught internally). -/
  | fetchBatch (lo hi : Nat) (ok : Bool)
  /-- `update_mail_details(n)` persisted the cursor value `n`. -/
  | cursorUpdate (n : Nat)
  /-- `process_email_queue()` drained the queue. -/
  | drainQueue
  deriving Repr, DecidableEq

/-- Is the event a cursor update? -/
def MEvent.isCursorUpdate : MEvent → Bool
  | MEvent.cursorUpdate _ => true
  | _ => false

/-- One iteration of the `while True` loop of `monitor_mails`:
bootstrap run (no prior poll time) only initialises the cursor; a cycle
with new mail fetches the gap `[stored+1, current]`, then persists the
new count, then drains the queue when anything was enqueued; otherwise
nothing happens.  `fetchOk` is whether the fetch batch completed without
its body raising; `addedIfOk` the number of records it enqueued. -/
def monitorCycle (stored : Nat) (firstRun : Bool) (current : Nat)
    (fetchOk : Bool) (addedIfOk : Nat) : List MEvent :=
  if firstRun then
    [MEvent.cursorUpdate current]
  else if stored < current then
    let added := if fetchOk then addedIfOk else 0
    [MEvent.fetchBatch (stored + 1) current fetchOk, MEvent.cursorUpdate current]
      ++ (if 0 < added then [MEvent.drainQueue] else [])
  else
    []

/-! ## Sample data

Concrete records and backend replies used to instantiate the theorems
below on closed inputs. -/

/-- A registered policyholder payload. -/
def someUser : UserData := { userId := "u1", policyType := "auto" }

/-- An email with one attachment and an incident description. -/
def emailWithAttachment : EmailData :=
  { senderEmail := "cust@example.com", subject := "Car accident claim",
    content := "My car was damaged", claimId := "CLAIM_AB12CD34",
    attachmentCount := 1,
    attachmentPaths := ["attachments/CLAIM_AB12CD34/1712_photo.jpg"] }

/-- An email with no attachments and no monetary content. -/
def emailPlain : EmailData :=
  { senderEmail := "someone@example.com", subject := "hello",
    content := "world", claimId := "CLAIM_00000000",
    attachmentCount := 0, attachmentPaths := [] }

/-- An email whose body is exactly a currency-prefixed amount. -/
def emailDollarBody : EmailData :=
  { senderEmail := "cust@example.com", subject := "Claim",
    content := "$2500", claimId := "CLAIM_FF00FF00",
    attachmentCount := 1,
    attachmentPaths := ["attachments/CLAIM_FF00FF00/1712_bill.pdf"] }

/-- A backend reply stating `PENDING` with no missing-items block. -/
def replyPendingBare : String := "FULFILLMENT_STATUS: PENDING"

/-- A backend reply stating `PENDING` with a reason-related missing item. -/
def replyPendingMissingReason : String :=
  "FULFILLMENT_STATUS: PENDING\nMISSING_ITEMS:\n- Reason for claim missing"

/-- A backend reply stating `COMPLETED`. -/
def replyCompleted : String := "FULFILLMENT_STATUS: COMPLETED"

/-- A backend reply that contains the literal marker
`FULFILLMENT_STATUS: COMPLETED`, but whose first status marker states
`PENDING`. -/
def replyBothMarkers : String :=
  "FULFILLMENT_STATUS: PENDING then FULFILLMENT_STATUS: COMPLETED"

/-- The amount-related missing-items line from the assessment prompt's
own example reply. -/
def missingAmountText : String := "- Specific claim amount not provided"

/-- A fulfillment environment in which no remote call is attempted. -/
def idleEnv : FulfillEnv :=
  { llmReply := none, archive := none, saveOk := false, mailOk := false }

/-- Environment: assessment yields `PENDING`, persistence succeeds, the
customer notification dispatch fails. -/
def envPendingMailFail : FulfillEnv :=
  { llmReply := some replyPendingMissingReason, archive := none,
    saveOk := true, mailOk := false }

/-- Environment: assessment yields `COMPLETED`, the archive upload fails,
persistence succeeds. -/
def envArchiveFail : FulfillEnv :=
  { llmReply := some replyCompleted, archive := none,
    saveOk := true, mailOk := true }

/-- A queued record whose handling raises. -/
def raisingRecord : QRecord :=
  { rid := 1, data := emailWithAttachment, raises := true,
    regOutcome := RegApiOutcome.httpReply 200 "success" someUser,
    rejectionSendOk := true, fulfillEnv := idleEnv }

/-- A queued record from a registered sender, handled without incident. -/
def calmRecord : QRecord :=
  { rid := 2, data := emailWithAttachment, raises := false,
    regOutcome := RegApiOutcome.httpReply 200 "success" someUser,
    rejectionSendOk := true, fulfillEnv := envPendingMailFail }

/-- A queued record whose sender the directory reports as not found
(HTTP 404). -/
def unregRecord : QRecord :=
  { rid := 7, data := emailPlain, raises := false,
    regOutcome := RegApiOutcome.httpReply 404 "error" someUser,
    rejectionSendOk := true, fulfillEnv := idleEnv }

/-! ## Helper lemmas -/

/-- The claim-amount item differs from the user-email item. -/
theorem claimAmount_ne_email : claimAmountItem ≠ "✓ User email address provided" := by
  decide

/-- The claim-amount item differs from the reason item. -/
theorem claimAmount_ne_reason : claimAmountItem ≠ "✓ Reason for claim provided" := by
  decide

/-- The claim-amount item differs from every supporting-documents item. -/
theorem claimAmount_ne_supporting (n : Nat) :
    claimAmountItem ≠ "✓ Supporting documents provided (" ++ toString n ++ " attachments)" := by
  intro h
  have hl := congrArg String.length h
  rw [String.length_append, String.length_append] at hl
  have h1 : claimAmountItem.length = 24 := by decide
  have h2 : ("✓ Supporting documents provided (" : String).length = 33 := by decide
  have h3 : (" attachments)" : String).length = 13 := by decide
  rw [h1, h2, h3] at hl
  omega

/-- The claim-amount item differs from every partial-documents item. -/
theorem claimAmount_ne_some_docs (n : Nat) :
    claimAmountItem ≠
      "✓ Some documents provided (" ++ toString n ++ " attachments, additional may be needed)" := by
  intro h
  have hl := congrArg String.length h
  rw [String.length_append, String.length_append] at hl
  have h1 : claimAmountItem.length = 24 := by decide
  have h2 : ("✓ Some documents provided (" : String).length = 27 := by decide
  have h3 : (" attachments, additional may be needed)" : String).length = 39 := by decide
  rw [h1, h2, h3] at hl
  omega

/-! ## C6 — classification fail-open -/

/-- **C6**: if the backend call itself raises or times out, the classify
operation still returns the (well-formed) keyword-fallback
`ClassificationResult` — relevance iff at least two distinct fixed
keywords occur in subject or body, confidence 30 — and never propagates
the error (the embedding is a total function of the outcome). -/
theorem classification_fail_open (e : EmailData) :
    filterEmailWithLlm e LLMCallOutcome.failure = fallbackInsuranceCheck e ∧
    (filterEmailWithLlm e LLMCallOutcome.failure).confidence = 30 ∧
    (filterEmailWithLlm e LLMCallOutcome.failure).category = "fallback_analysis" ∧
    ((filterEmailWithLlm e LLMCallOutcome.failure).isInsurance = true ↔
      2 ≤ insuranceKeywordCount e) := by
  refine ⟨rfl, rfl, rfl, ?_⟩
  simp [filterEmailWithLlm, fallbackInsuranceCheck]

/-! ## C5 — classifier parse-failure fallback -/

/-- **C5** (counterexample): a backend response in which no span between
braces can be located does **not** fall back to the keyword-count
heuristic: the classifier returns the text-level fallback with
confidence 50, not the keyword heuristic with confidence 30. -/
theorem classifier_fallback_counterexample :
    hasJsonSpan ("cannot classify" : String).toList = false ∧
    (filterEmailWithLlm emailPlain (LLMCallOutcome.ok "cannot classify" none)).confidence = 50 ∧
    filterEmailWithLlm emailPlain (LLMCallOutcome.ok "cannot classify" none)
      ≠ fallbackInsuranceCheck emailPlain := by
  decide

/-- **C5** (amended): when a brace-delimited span is located but is
malformed JSON, the classifier returns the keyword-count heuristic over
subject+body (relevance iff at least two distinct keywords, confidence
30); when no span can be located, it instead returns the text-level
fallback over the response text, whose confidence is the fixed value
50. -/
theorem classifier_parse_fallback_split (e : EmailData) (content : String)
    (parsed : Option ClassificationResult) :
    (hasJsonSpan content.toList = true → parsed = none →
      filterEmailWithLlm e (LLMCallOutcome.ok content parsed) = fallbackInsuranceCheck e ∧
      (filterEmailWithLlm e (LLMCallOutcome.ok content parsed)).confidence = 30 ∧
      ((filterEmailWithLlm e (LLMCallOutcome.ok content parsed)).isInsurance = true ↔
        2 ≤ insuranceKeywordCount e)) ∧
    (hasJsonSpan content.toList = false →
      filterEmailWithLlm e (LLMCallOutcome.ok content parsed) = parseLlmResponseFallback content ∧
      (filterEmailWithLlm e (LLMCallOutcome.ok content parsed)).confidence = 50) := by
  constructor
  · intro hs hp
    subst hp
    simp only [String.toList] at hs
    refine ⟨by simp [filterEmailWithLlm, hs], by simp [filterEmailWithLlm, hs, fallbackInsuranceCheck], ?_⟩
    simp [filterEmailWithLlm, hs, fallbackInsuranceCheck]
  · intro hs
    simp only [String.toList] at hs
    refine ⟨by simp [filterEmailWithLlm, hs], by simp [filterEmailWithLlm, hs, parseLlmResponseFallback]⟩

/-- **C5** witness: the amended theorem evaluated on a malformed
brace-delimited span and on a span-less response. -/
theorem classifier_parse_fallback_split_witness :
    (filterEmailWithLlm emailPlain (LLMCallOutcome.ok "\x7b1\x7d" none)
      = fallbackInsuranceCheck emailPlain) ∧
    (filterEmailWithLlm emailPlain (LLMCallOutcome.ok "plain text" none)
      = parseLlmResponseFallback "plain text") := by
  have h1 := (classifier_parse_fallback_split emailPlain "\x7b1\x7d" none).1 (by decide) rfl
  have h2 := (classifier_parse_fallback_split emailPlain "plain text" none).2 (by decide)
  exact ⟨h1.1, h2.1⟩

/-! ## C2 — claim-amount detection -/

/-- **C2** (counterexample): an email whose body is the monetary pattern
`$2500` does **not** get the claim-amount requirement credited when an
amount keyword occurs in the missing-items text: the monetary scan is
computed but does not feed the decision. -/
theorem claim_amount_crosscheck_counterexample :
    hasMonetaryValue emailDollarBody.content = true ∧
    claimAmountItem ∉ identifySatisfiedRequirements emailDollarBody missingAmountText := by
  decide

/-- **C2** (amended): the claim-amount requirement is marked satisfied
exactly when no amount-related keyword occurs in the lowercased
missing-items text; the email body (and hence the monetary-pattern scan
over it) has no influence on the satisfied-items computation. -/
theorem claim_amount_keyword_only (e : EmailData) (m : String) (c : String) :
    (claimAmountItem ∈ identifySatisfiedRequirements e m ↔
      anyKeywordIn amountKeywords (lowerStr m) = false) ∧
    identifySatisfiedRequirements { e with content := c } m
      = identifySatisfiedRequirements e m := by
  refine ⟨?_, rfl⟩
  simp only [identifySatisfiedRequirements]
  cases hR : anyKeywordIn reasonKeywords (lowerStr m) <;>
  cases hA : anyKeywordIn amountKeywords (lowerStr m) <;>
  by_cases hN : e.attachmentCount > 0 <;>
  cases hP : anyKeywordIn proofKeywords (lowerStr m) <;>
  simp [hN, List.mem_append, claimAmount_ne_email, claimAmount_ne_reason,
    claimAmount_ne_supporting, claimAmount_ne_some_docs]

/-! ## C1 — failsafe override -/

/-- **C1**: for every email record and backend reply, if the
independently computed satisfied-items list has at least 4 entries and
the (normalised) missing-items text is empty or is the generic default
placeholder, the parsed terminal status is `COMPLETED`, regardless of
the status the backend literally stated. -/
theorem failsafe_override_forces_completed (e : EmailData) (r : String)
    (h4 : 4 ≤ (identifySatisfiedRequirements e (extractMissingItems r)).length)
    (hm : extractMissingItems r = "" ∨ extractMissingItems r = defaultMissing) :
    (parseFulfillmentResponse r e).status = FStatus.completed := by
  simp only [parseFulfillmentResponse]
  by_cases hp : (findStatus r.toList).getD FStatus.pending = FStatus.pending
  · rw [if_pos hp, if_pos]
    refine ⟨h4, ?_⟩
    rcases hm with h | h
    · exact Or.inl h
    · exact Or.inr (Or.inr h)
  · rw [if_neg hp]
    show (findStatus r.toList).getD FStatus.pending = FStatus.completed
    cases h : (findStatus r.toList).getD FStatus.pending
    · rfl
    · exact absurd h hp

/-- **C1** witness: a backend reply stating `PENDING` without a
missing-items block, for an email with one attachment, is overridden to
`COMPLETED`. -/
theorem failsafe_override_witness :
    4 ≤ (identifySatisfiedRequirements emailWithAttachment
          (extractMissingItems replyPendingBare)).length ∧
    (extractMissingItems replyPendingBare = "" ∨
      extractMissingItems replyPendingBare = defaultMissing) ∧
    (parseFulfillmentResponse replyPendingBare emailWithAttachment).status
      = FStatus.completed :=
  ⟨by decide, Or.inr (by decide),
    failsafe_override_forces_completed emailWithAttachment replyPendingBare
      (by decide) (Or.inr (by decide))⟩

/-! ## C10 — backend-stated COMPLETED accepted on the first marker -/

/-- **C10** (counterexample): a backend reply *containing* the literal
marker `FULFILLMENT_STATUS: COMPLETED` is not necessarily parsed as
`COMPLETED`: the extractor uses the leftmost status marker, so a reply
that first states `PENDING` stays `PENDING`. -/
theorem completed_marker_counterexample :
    strHasSub replyBothMarkers "FULFILLMENT_STATUS: COMPLETED" = true ∧
    (parseFulfillmentResponse replyBothMarkers emailPlain).status = FStatus.pending := by
  decide

/-- **C10** (amended): for every email record and every backend reply
whose *first* `FULFILLMENT_STATUS` marker states `COMPLETED`, the parse
returns `COMPLETED` with empty missing-items and the fixed satisfied
list — the evidence reconciliation and failsafe run only on the
`PENDING` path, so such a reply is accepted unconditionally (even with
zero attachments and no monetary content) and never demoted. -/
theorem first_marker_completed_accepted (e : EmailData) (r : String)
    (h : findStatus r.toList = some FStatus.completed) :
    parseFulfillmentResponse r e =
      { status := FStatus.completed, missingItems := "",
        satisfiedItems := completedSatisfiedList e.attachmentCount } := by
  simp only [String.toList] at h
  simp [parseFulfillmentResponse, h]

/-- **C10** witness: a bare `FULFILLMENT_STATUS: COMPLETED` reply for an
email with zero attachments and no monetary content. -/
theorem first_marker_completed_witness :
    findStatus replyCompleted.toList = some FStatus.completed ∧
    parseFulfillmentResponse replyCompleted emailPlain =
      { status := FStatus.completed, missingItems := "",
        satisfiedItems := completedSatisfiedList emailPlain.attachmentCount } :=
  ⟨by decide, first_marker_completed_accepted emailPlain replyCompleted (by decide)⟩

/-! ## C8 — PENDING branch: persist, then dispatch -/

/-- **C8**: when the terminal assessment status is `PENDING`, the run
persists a pending `FulfillmentRecord` first and dispatches the customer
notification only after (and only if) the persistence succeeded; the
reported result is success exactly when both the persistence and the
dispatch succeed; and the only persistence call of the run carries
status `pending` — a failed dispatch does not revert or delete it. -/
theorem pending_branch_persist_then_dispatch (env : FulfillEnv) (e : EmailData)
    (r : String)
    (hr : env.llmReply = some r)
    (hp : (parseFulfillmentResponse r e).status = FStatus.pending) :
    processEmailFulfillment env e =
      (env.saveOk && env.mailOk,
        FEvent.save (buildApiData e "pending" (parseFulfillmentResponse r e).missingItems none) env.saveOk
          :: (if env.saveOk then [FEvent.sendMail e.senderEmail env.mailOk] else [])) ∧
    (processEmailFulfillment env e).snd.filter FEvent.isSave =
      [FEvent.save (buildApiData e "pending" (parseFulfillmentResponse r e).missingItems none) env.saveOk] := by
  have hmain : processEmailFulfillment env e =
      (env.saveOk && env.mailOk,
        FEvent.save (buildApiData e "pending" (parseFulfillmentResponse r e).missingItems none) env.saveOk
          :: (if env.saveOk then [FEvent.sendMail e.senderEmail env.mailOk] else [])) := by
    simp only [processEmailFulfillment, hr, hp]
    cases hs : env.saveOk <;> simp [hs]
  refine ⟨hmain, ?_⟩
  rw [hmain]
  cases hs : env.saveOk <;> simp [FEvent.isSave]

/-- **C8** witness: pending assessment, successful persistence, failed
dispatch — the run reports failure and the single persisted record is
pending. -/
theorem pending_branch_witness :
    (parseFulfillmentResponse replyPendingMissingReason emailPlain).status
      = FStatus.pending ∧
    processEmailFulfillment envPendingMailFail emailPlain =
      (false,
        [FEvent.save (buildApiData emailPlain "pending"
            (parseFulfillmentResponse replyPendingMissingReason emailPlain).missingItems none) true,
          FEvent.sendMail "someone@example.com" false]) := by
  have h := pending_branch_persist_then_dispatch envPendingMailFail emailPlain
    replyPendingMissingReason rfl (by decide)
  refine ⟨by decide, ?_⟩
  rw [h.1]
  rfl

/-! ## C9 — archive failure degrades durability, keeps local files -/

/-- **C9**: when the terminal status is `COMPLETED` and the archive
upload fails, the run still persists a `FulfillmentRecord` with status
`completed` but with no archive references, reports the persistence
outcome, and performs no local cleanup (the attachment files and the
per-claim directory are kept). -/
theorem archive_failure_keeps_local_files (env : FulfillEnv) (e : EmailData)
    (r : String)
    (hr : env.llmReply = some r)
    (hc : (parseFulfillmentResponse r e).status = FStatus.completed)
    (ha : env.archive = none) :
    processEmailFulfillment env e =
      (env.saveOk,
        [FEvent.archiveUpload false,
          FEvent.save (buildApiData e "completed" "" none) env.saveOk]) ∧
    (buildApiData e "completed" "" none).mailContentRef = none ∧
    (buildApiData e "completed" "" none).attachmentRefs = none ∧
    (buildApiData e "completed" "" none).hasFileIds = false ∧
    (buildApiData e "completed" "" none).fulfillmentStatus = "completed" ∧
    FEvent.cleanupFiles ∉ (processEmailFulfillment env e).snd := by
  have hmain : processEmailFulfillment env e =
      (env.saveOk,
        [FEvent.archiveUpload false,
          FEvent.save (buildApiData e "completed" "" none) env.saveOk]) := by
    simp only [processEmailFulfillment, hr, hc, ha]
  refine ⟨hmain, rfl, rfl, rfl, rfl, ?_⟩
  rw [hmain]
  simp

/-- **C9** witness: completed assessment with failed archive upload and
successful persistence — the record is persisted without references and
no cleanup event occurs. -/
theorem archive_failure_witness :
    (parseFulfillmentResponse replyCompleted emailWithAttachment).status
      = FStatus.completed ∧
    processEmailFulfillment envArchiveFail emailWithAttachment =
      (true,
        [FEvent.archiveUpload false,
          FEvent.save (buildApiData emailWithAttachment "completed" "" none) true]) := by
  have h := archive_failure_keeps_local_files envArchiveFail emailWithAttachment
    replyCompleted rfl (by decide) rfl
  refine ⟨by decide, ?_⟩
  rw [h.1]
  rfl

/-! ## Queue lemmas -/

/-- Every event produced by one record step concerns that record. -/
theorem recStep_rid {a : QRecord} {ev : QEvent} (h : ev ∈ recStep a) :
    ev.rid = a.rid := by
  unfold recStep at h
  split at h <;> simp at h <;> subst h <;> rfl

/-- A drain cycle over records with foreign ids produces no event about
`n`. -/
theorem processQueue_rid_ne (q : List QRecord) (n : Nat)
    (hq : ∀ x ∈ q, x.rid ≠ n) :
    ∀ ev ∈ (processEmailQueue q).fst, ev.rid ≠ n := by
  induction q with
  | nil => intro ev hev; simp [processEmailQueue] at hev
  | cons a t ih =>
    intro ev hev
    by_cases ha : a.raises
    · simp [processEmailQueue, ha] at hev
    · simp only [processEmailQueue, ha, Bool.false_eq_true, if_false] at hev
      rcases List.mem_append.mp hev with h1 | h2
      · rw [recStep_rid h1]
        exact hq a (List.mem_cons_self a t)
      · exact ih (fun x hx => hq x (List.mem_cons_of_mem a hx)) ev h2

/-- Events about ids absent from a list pass no `rid`-guarded filter. -/
theorem filter_rid_ne (evs : List QEvent) (n : Nat) (p : QEvent → Bool)
    (h : ∀ ev ∈ evs, ev.rid ≠ n) :
    evs.filter (fun ev => p ev && ev.rid == n) = [] := by
  apply List.filter_eq_nil_iff.mpr
  intro ev hev
  simp [h ev hev]

/-! ## C3 — exception during queue processing -/

/-- **C3** (counterexample): a record whose handling raises does **not**
let the drain cycle continue: the cycle produces no events and the
records behind it remain queued unprocessed. -/
theorem queue_exception_break_counterexample :
    (processEmailQueue [raisingRecord, calmRecord]).snd = [calmRecord] ∧
    (processEmailQueue [raisingRecord, calmRecord]).fst = [] := by
  decide

/-- **C3** (amended): an exception while handling one record is caught by
the drain loop's handler, but the handler breaks the cycle: the records
dequeued before it are handled normally, and every record after the
raising one stays in the queue for a later cycle instead of being
handled in the same drain cycle. -/
theorem queue_break_on_exception (pre : List QRecord) (bad : QRecord)
    (rest : List QRecord)
    (hpre : ∀ x ∈ pre, x.raises = false) (hbad : bad.raises = true) :
    processEmailQueue (pre ++ bad :: rest) = ((pre.map recStep).flatten, rest) := by
  induction pre with
  | nil => simp [processEmailQueue, hbad]
  | cons a t ih =>
    have ha : a.raises = false := hpre a (List.mem_cons_self a t)
    have ih' := ih (fun x hx => hpre x (List.mem_cons_of_mem a hx))
    simp [processEmailQueue, ha, ih']

/-- **C3** witness: one well-behaved record, then a raising one, then a
third — the third remains queued. -/
theorem queue_break_witness :
    processEmailQueue [calmRecord, raisingRecord, unregRecord] =
      (([calmRecord].map recStep).flatten, [unregRecord]) :=
  queue_break_on_exception [calmRecord] raisingRecord [unregRecord]
    (by decide) (by decide)

/-! ## C7 — registration gate -/

/-- **C7**: non-200 replies and transport errors of the directory lookup
are treated as unregistered; and for every dequeued record whose sender
is not confirmed registered, the drain cycle invokes no fulfillment
assessment for it (hence creates no `FulfillmentRecord`) and dispatches
exactly one registration-required notification for it. -/
theorem registration_gate :
    (∀ code bodyStatus user, code ≠ 200 →
      checkUserRegistration (RegApiOutcome.httpReply code bodyStatus user)
        = (false, none)) ∧
    checkUserRegistration RegApiOutcome.transportError = (false, none) ∧
    ∀ (pre post : List QRecord) (b : QRecord),
      (∀ x ∈ pre, x.raises = false) →
      b.raises = false →
      (checkUserRegistration b.regOutcome).fst = false →
      (∀ x ∈ pre, x.rid ≠ b.rid) →
      (∀ x ∈ post, x.rid ≠ b.rid) →
      ((processEmailQueue (pre ++ b :: post)).fst.filter
          (fun ev => ev.isFulfillmentRun && ev.rid == b.rid) = [] ∧
        ((processEmailQueue (pre ++ b :: post)).fst.filter
          (fun ev => ev.isRejectionSent && ev.rid == b.rid)).length = 1) := by
  refine ⟨?_, ?_, ?_⟩
  · intro code bodyStatus user hne
    simp [checkUserRegistration, hne]
  · rfl
  · intro pre post b hpre hb hunreg hfpre hfpost
    induction pre with
    | nil =>
      have hq : processEmailQueue ([] ++ b :: post) =
          (recStep b ++ (processEmailQueue post).fst, (processEmailQueue post).snd) := by
        simp [processEmailQueue, hb]
      have hstep : recStep b = [QEvent.rejectionSent b.rid b.rejectionSendOk] := by
        simp [recStep, hunreg]
      have hpost := processQueue_rid_ne post b.rid hfpost
      rw [hq, hstep]
      constructor
      · rw [List.filter_append, filter_rid_ne _ _ _ hpost]
        simp [QEvent.isFulfillmentRun]
      · rw [List.filter_append, filter_rid_ne _ _ _ hpost]
        simp [QEvent.isRejectionSent, QEvent.rid]
    | cons a t ih =>
      have ha : a.raises = false := hpre a (List.mem_cons_self a t)
      have hq : processEmailQueue ((a :: t) ++ b :: post) =
          (recStep a ++ (processEmailQueue (t ++ b :: post)).fst,
            (processEmailQueue (t ++ b :: post)).snd) := by
        simp [processEmailQueue, ha]
      have hstepa : ∀ ev ∈ recStep a, ev.rid ≠ b.rid := by
        intro ev hev
        rw [recStep_rid hev]
        exact hfpre a (List.mem_cons_self a t)
      have ih' := ih (fun x hx => hpre x (List.mem_cons_of_mem a hx))
        (fun x hx => hfpre x (List.mem_cons_of_mem a hx))
      rw [hq]
      constructor
      · rw [List.filter_append, filter_rid_ne _ _ _ hstepa]
        simpa using ih'.1
      · rw [List.filter_append, filter_rid_ne _ _ _ hstepa]
        simpa using ih'.2

/-- **C7** witness: a queue holding one record whose directory lookup
answered HTTP 404. -/
theorem registration_gate_witness :
    (processEmailQueue [unregRecord]).fst.filter
        (fun ev => ev.isFulfillmentRun && ev.rid == unregRecord.rid) = [] ∧
    ((processEmailQueue [unregRecord]).fst.filter
        (fun ev => ev.isRejectionSent && ev.rid == unregRecord.rid)).length = 1 :=
  registration_gate.2.2 [] [] unregRecord (by decide) (by decide) (by decide)
    (by decide) (by decide)

/-! ## C4 — cursor update after the fetch -/

/-- **C4** (counterexample): in a new-mail cycle whose fetch batch fails
(its body raised; the error is caught inside the fetch and it reports 0
added), the cursor is still advanced to the current count — the update
is not conditional on fetch success. -/
theorem cursor_advance_counterexample :
    monitorCycle 5 false 7 false 0 =
      [MEvent.fetchBatch 6 7 false, MEvent.cursorUpdate 7] ∧
    MEvent.cursorUpdate 7 ∈ monitorCycle 5 false 7 false 0 := by
  decide

/-- **C4** (amended): in every new-mail poll cycle the persisted-count
update is sequenced after the fetch batch for exactly the gap range
`[stored+1, current]`, and it is the cycle's only cursor update, with
value `current` — but it happens whether or not the fetch batch
succeeded (an in-process fetch failure is caught and the cursor still
advances; only a crash before the update avoids advancing it). -/
theorem cursor_update_after_fetch (stored current : Nat) (fetchOk : Bool)
    (addedIfOk : Nat) (h : stored < current) :
    ∃ tail,
      monitorCycle stored false current fetchOk addedIfOk =
        MEvent.fetchBatch (stored + 1) current fetchOk
          :: MEvent.cursorUpdate current :: tail ∧
      (∀ ev ∈ tail, ev = MEvent.drainQueue) ∧
      (monitorCycle stored false current fetchOk addedIfOk).filter
          MEvent.isCursorUpdate = [MEvent.cursorUpdate current] := by
  by_cases hadd : 0 < (if fetchOk then addedIfOk else 0)
  · refine ⟨[MEvent.drainQueue], ?_, ?_, ?_⟩ <;>
      simp [monitorCycle, h, hadd, MEvent.isCursorUpdate]
  · refine ⟨[], ?_, ?_, ?_⟩ <;>
      simp [monitorCycle, h, hadd, MEvent.isCursorUpdate]

/-- **C4** witness: the amended ordering at a concrete failed-fetch
cycle. -/
theorem cursor_update_after_fetch_witness :
    ∃ tail,
      monitorCycle 5 false 7 false 0 =
        MEvent.fetchBatch 6 7 false :: MEvent.cursorUpdate 7 :: tail ∧
      (∀ ev ∈ tail, ev = MEvent.drainQueue) ∧
      (monitorCycle 5 false 7 false 0).filter MEvent.isCursorUpdate
        = [MEvent.cursorUpdate 7] :=
  cursor_update_after_fetch 5 7 false 0 (by decide)

end Claims
